import Mathlib

/-!
Shallow embedding of `src/pipeline.py` (HR data cleaning & validation
pipeline) together with theorems checking the natural-language
specification against it.

Modelling conventions:
* a pandas cell is a `Value`: `null` (NaN), a rational number, or a string;
* a `Dataset` is the column list plus the rows, each row carrying its
  pandas index label (labels survive `drop_duplicates`);
* a per-row rule verdict is an `Option Bool` (`none` models a NaN verdict);
* a predicate evaluation returns `Option (List (Option Bool))`, where
  `none` models an exception raised during evaluation (caught by the
  `try/except` around the validation loop);
* floats are modelled by `ℚ`; `pd.to_datetime(..., errors="coerce")` is
  modelled for ISO `YYYY-MM-DD` strings, everything else coercing to `NaT`
  (`none`), and comparisons against `NaT` are `false` as in pandas.
-/

namespace HR

/-- A cell of the tabular dataset: NaN, a number, or a string. -/
inductive Value where
  | null : Value
  | num : ℚ → Value
  | str : String → Value
deriving DecidableEq

/-- A dataset: named columns and rows; each row keeps its pandas index
label and holds one value per column (positionally). -/
structure Dataset where
  cols : List String
  rows : List (ℕ × List Value)
deriving DecidableEq

/-- Position of a column name in the column list (`df.columns.get_loc`). -/
def colIdx (c : String) : List String → Option ℕ
  | [] => none
  | c2 :: rest => if c2 = c then some 0 else (colIdx c rest).map (fun i => i + 1)

/-- Positional read of a cell list; out-of-range reads as NaN (the engine
only reads columns it has checked to be present). -/
def getNth : List Value → ℕ → Value
  | [], _ => Value.null
  | v :: _, 0 => v
  | _ :: vs, n + 1 => getNth vs n

/-- Positional write into a cell list; out-of-range writes are dropped. -/
def setNth : List Value → ℕ → Value → List Value
  | [], _, _ => []
  | _ :: vs, 0, v => v :: vs
  | w :: vs, n + 1, v => w :: setNth vs n v

/-- Value of column `c` in a row with cell list `vals` (`df.at[idx, c]`).
Absent columns read as NaN. -/
def getCell (cols : List String) (vals : List Value) (c : String) : Value :=
  match colIdx c cols with
  | some i => getNth vals i
  | none => Value.null

/-- Cell of a dataset row. -/
def Dataset.cell (d : Dataset) (r : ℕ × List Value) (c : String) : Value :=
  getCell d.cols r.2 c

/-- The values of one column, in row order (`df[c]`). -/
def Dataset.column (d : Dataset) (c : String) : List Value :=
  d.rows.map (fun r => getCell d.cols r.2 c)

/-- Is a cell a string? (Used to state numeric-column hypotheses.) -/
def isStrVal : Value → Bool
  | Value.str _ => true
  | _ => false

/-- `astype(str)` of one cell: pandas stringifies NaN to the literal
string `"nan"`. Numeric cells are stringified via `toString`; the claims
only exercise the NaN and string cases. -/
def strOfValue : Value → String
  | Value.null => "nan"
  | Value.str s => s
  | Value.num q => toString q

/-- Rewrite the values of column `c` through `f`, leaving the dataset
unchanged when the column is absent. -/
def mapCol (d : Dataset) (c : String) (f : Value → Value) : Dataset :=
  match colIdx c d.cols with
  | none => d
  | some i =>
    { d with rows := d.rows.map (fun r => (r.1, setNth r.2 i (f (getNth r.2 i)))) }

/-- `df[c].fillna(repl)`. -/
def fillna (d : Dataset) (c : String) (repl : Value) : Dataset :=
  mapCol d c (fun v => if v = Value.null then repl else v)

/-- The numeric (non-null) entries of a column. -/
def numsOf (vals : List Value) : List ℚ :=
  vals.filterMap (fun v => match v with | Value.num q => some q | _ => none)

/-- `df[c].mean()`: mean of the non-null values, `none` (NaN) when the
column has no numeric values. -/
def colMean (vals : List Value) : Option ℚ :=
  let nums := numsOf vals
  if nums.length = 0 then none else some (nums.sum / (nums.length : ℚ))

/-- `df[c] = df[c].fillna(df[c].mean())`: a NaN mean makes this a no-op. -/
def fillnaMean (d : Dataset) (c : String) : Dataset :=
  match colMean (d.column c) with
  | some m => fillna d c (Value.num m)
  | none => d

/-- First-occurrence filter underlying `drop_duplicates`: a row is kept
iff its key has not been seen on an earlier row. -/
def dedupBy {α : Type} [DecidableEq α] (key : ℕ × List Value → α) :
    List (ℕ × List Value) → List α → List (ℕ × List Value)
  | [], _ => []
  | r :: rs, seen =>
    if key r ∈ seen then dedupBy key rs seen
    else r :: dedupBy key rs (key r :: seen)

/-- `df.drop_duplicates()`: full-row deduplication, keeping the first
occurrence (row labels are preserved). -/
def drop_duplicates (d : Dataset) : Dataset :=
  { d with rows := dedupBy (fun r => r.2) d.rows [] }

/-- `df.drop_duplicates(subset=[c])`: deduplication on one column's value,
keeping the first occurrence. -/
def drop_duplicates_subset (d : Dataset) (c : String) : Dataset :=
  { d with rows := dedupBy (fun r => getCell d.cols r.2 c) d.rows [] }

/-- Decimal digits to a natural number. -/
def digitsToNat (cs : List Char) : ℕ :=
  cs.foldl (fun n c => n * 10 + (c.toNat - '0'.toNat)) 0

/-- Parse a non-empty all-digit character list. -/
def digitsToNat? (cs : List Char) : Option ℕ :=
  if cs ≠ [] ∧ cs.all (fun c => '0' ≤ c ∧ c ≤ '9') then some (digitsToNat cs) else none

/-- Split a character list on a separator character (like `str.split`). -/
def splitOnChar (sep : Char) (cs : List Char) : List (List Char) :=
  cs.foldr
    (fun c acc =>
      if c = sep then [] :: acc
      else match acc with
        | [] => [[c]]
        | g :: gs => (c :: g) :: gs)
    [[]]

/-- Parse an unsigned decimal numeral (`"12"` or `"12.5"`). -/
def parseUnsigned (cs : List Char) : Option ℚ :=
  match splitOnChar '.' cs with
  | [a] => (digitsToNat? a).map (fun n => (n : ℚ))
  | [a, b] =>
    match digitsToNat? a, digitsToNat? b with
    | some ia, some ib => some ((ia : ℚ) + (ib : ℚ) / ((10 : ℚ) ^ b.length))
    | _, _ => none
  | _ => none

/-- `pd.to_numeric(·, errors="coerce")` on one cell: numbers pass through,
parsable numeral strings become numbers, anything else becomes NaN. -/
def to_numeric (v : Value) : Value :=
  match v with
  | Value.num q => Value.num q
  | Value.null => Value.null
  | Value.str s =>
    match s.data with
    | '-' :: rest =>
      match parseUnsigned rest with
      | some q => Value.num (-q)
      | none => Value.null
    | cs =>
      match parseUnsigned cs with
      | some q => Value.num q
      | none => Value.null

/-- `astype("category")` changes only the dtype, never a value. -/
def astype_category (d : Dataset) (_c : String) : Dataset := d

/-- `df["EmpID"] = df["EmpID"].astype(str)`. -/
def astype_str (d : Dataset) (c : String) : Dataset :=
  mapCol d c (fun v => Value.str (strOfValue v))

/-- Insertion into a sorted list of rationals. -/
def insertSorted (x : ℚ) : List ℚ → List ℚ
  | [] => [x]
  | y :: ys => if x ≤ y then x :: y :: ys else y :: insertSorted x ys

/-- Ascending insertion sort (kernel-evaluable). -/
def sortQ (l : List ℚ) : List ℚ := l.foldr insertSorted []

/-- `Series.quantile(q)` with pandas' default linear interpolation over
the sorted non-null values; `none` (NaN) when there are none. -/
def quantile (vals : List Value) (q : ℚ) : Option ℚ :=
  let xs := sortQ (numsOf vals)
  match xs with
  | [] => none
  | _ =>
    let n := xs.length
    let pos : ℚ := q * ((n : ℚ) - 1)
    let f : ℕ := (pos.num / (pos.den : ℤ)).toNat
    let lo := xs.getD f 0
    let hi := xs.getD (f + 1) lo
    some (lo + (pos - (f : ℚ)) * (hi - lo))

/-- The IQR fence `(lower, upper)` of a column: `none` when the quartiles
are NaN (empty numeric data). `mkRat 3 2` is the source's `1.5`. -/
def iqrFence (vals : List Value) : Option (ℚ × ℚ) :=
  match quantile vals (mkRat 1 4), quantile vals (mkRat 3 4) with
  | some q1, some q3 => some (q1 - mkRat 3 2 * (q3 - q1), q3 + mkRat 3 2 * (q3 - q1))
  | _, _ => none

/-- Per-cell outlier flag: `((v < lower) | (v > upper)).astype(int)`;
comparisons against NaN (either side) are `false` in pandas, so NaN cells
and a NaN fence always flag `0`. -/
def outlierFlag (fence : Option (ℚ × ℚ)) (v : Value) : ℚ :=
  match v, fence with
  | Value.num x, some (lo, hi) => if x < lo ∨ x > hi then 1 else 0
  | _, _ => 0

/-- `detect_outliers_iqr(data, column)`: appends the `<column>_outlier`
flag column computed from the column's IQR fence. -/
def detect_outliers_iqr (data : Dataset) (column : String) : Dataset :=
  let fence := iqrFence (data.column column)
  { cols := data.cols ++ [column ++ "_outlier"],
    rows := data.rows.map
      (fun r => (r.1, r.2 ++ [Value.num (outlierFlag fence (getCell data.cols r.2 column))])) }

/-- Elementwise evaluation that can raise: `none` for the whole series as
soon as one cell raises (the pandas vectorised op raises as a whole). -/
def mapOrRaise (f : Value → Option (Option Bool)) : List Value → Option (List (Option Bool))
  | [] => some []
  | v :: vs =>
    match f v, mapOrRaise f vs with
    | some b, some rest => some (b :: rest)
    | _, _ => none

/-- `series > 0` / `series >= 0` / `series.between(lo, hi)` share this
per-cell shape: NaN compares `false`; a string cell raises `TypeError`
(outer `none`), which the engine's `try/except` turns into a rule skip. -/
def cmpNum (f : ℚ → Bool) (v : Value) : Option (Option Bool) :=
  match v with
  | Value.null => some (some false)
  | Value.num q => some (some (f q))
  | Value.str _ => none

/-- `is_positive(series)`: `series > 0`. -/
def is_positive (series : List Value) : Option (List (Option Bool)) :=
  mapOrRaise (cmpNum (fun q => decide (q > 0))) series

/-- `in_range(series, lo, hi)`: `series.between(lo, hi)` (inclusive). -/
def in_range (series : List Value) (lo hi : ℚ) : Option (List (Option Bool)) :=
  mapOrRaise (cmpNum (fun q => decide (lo ≤ q ∧ q ≤ hi))) series

/-- `series >= 0` (the `income_positive` lambda). -/
def ge_zero (series : List Value) : Option (List (Option Bool)) :=
  mapOrRaise (cmpNum (fun q => decide (q ≥ 0))) series

/-- `not_null(series)`: `~series.isnull()`. -/
def not_null (series : List Value) : Option (List (Option Bool)) :=
  some (series.map (fun v => some (decide (¬ v = Value.null))))

/-- `series.duplicated()`: `true` exactly on repeats of an earlier value. -/
def dupGo (seen : List Value) : List Value → List Bool
  | [] => []
  | v :: vs => (v ∈ seen : Bool) :: dupGo (v :: seen) vs

/-- `s.duplicated()` over a whole series. -/
def duplicatedMask (series : List Value) : List Bool := dupGo [] series

/-- The `empid_unique` lambda: `~s.duplicated()`. -/
def unique_mask (series : List Value) : Option (List (Option Bool)) :=
  some ((duplicatedMask series).map (fun b => some (!b)))

/-- Does a character list have a `'.'` that is neither first nor last?
This is `[^@]+\.[^@]+` once the list is known to be `'@'`-free. -/
def hasInnerDot (l : List Char) : Bool := ((l.drop 1).dropLast).contains '.'

/-- The regex `^[^@]+@[^@]+\.[^@]+$` as a whole-string matcher: a unique
`'@'` with a non-empty part before it, and after it a `'@'`-free part
containing an inner `'.'`. -/
def emailPattern (s : String) : Bool :=
  match s.data.dropWhile (fun c => !(c = '@')) with
  | [] => false
  | _ :: post =>
    !(s.data.takeWhile (fun c => !(c = '@'))).isEmpty
      && post.all (fun c => !(c = '@'))
      && hasInnerDot post

/-- `match_regex(series, pattern)`: `series.astype(str).str.match(pattern,
na=False)`. `astype(str)` leaves no NaN (NaN becomes `"nan"`), so the
`na=False` branch is dead; the regex literal is embedded as a matcher. -/
def match_regex (series : List Value) (pattern : String → Bool) :
    Option (List (Option Bool)) :=
  some (series.map (fun v => some (pattern (strOfValue v))))

/-- Proleptic-Gregorian leap year (the calendar `datetime64` uses). -/
def isLeapYear (y : ℕ) : Bool :=
  decide (y % 4 = 0 ∧ (¬ y % 100 = 0 ∨ y % 400 = 0))

/-- Days in a month of the proleptic Gregorian calendar. -/
def daysInMonth (y m : ℕ) : ℕ :=
  if m = 2 then (if isLeapYear y then 29 else 28)
  else if m = 4 ∨ m = 6 ∨ m = 9 ∨ m = 11 then 30
  else 31

/-- `pd.to_datetime(cell, errors="coerce")` restricted to ISO
`YYYY-MM-DD` strings: the date is encoded as `y*10000 + m*100 + d`
(order-preserving). Anything else coerces to `NaT` (`none`): a
non-numeral field, a month outside 1-12, a day the proleptic Gregorian
calendar does not have (e.g. `"2021-02-30"`), or a date outside the
nanosecond `Timestamp` bounds — midnight timestamps exist only from
1677-09-22 (`Timestamp.min` is later that same day) through 2262-04-11
(`Timestamp.max`'s date), so e.g. `"1500-01-01"` is `NaT`. -/
def parseDate (v : Value) : Option ℕ :=
  match v with
  | Value.str s =>
    match splitOnChar '-' s.data with
    | [ys, ms, ds] =>
      match digitsToNat? ys, digitsToNat? ms, digitsToNat? ds with
      | some y, some m, some d =>
        if 1 ≤ m ∧ m ≤ 12 ∧ 1 ≤ d ∧ d ≤ daysInMonth y m
            ∧ 16770922 ≤ y * 10000 + m * 100 + d
            ∧ y * 10000 + m * 100 + d ≤ 22620411
        then some (y * 10000 + m * 100 + d) else none
      | _, _, _ => none
    | _ => none
  | _ => none

/-- `<=` on parsed datetime cells: any comparison involving `NaT` is
`false` in pandas. -/
def dateLe (a b : Option ℕ) : Bool :=
  match a, b with
  | some x, some y => decide (x ≤ y)
  | _, _ => false

/-- The `hire_before_termination` lambda on the full frame. -/
def hire_pred (d : Dataset) : Option (List (Option Bool)) :=
  if "HireDate" ∈ d.cols ∧ "TerminationDate" ∈ d.cols then
    some (d.rows.map (fun r =>
      some (dateLe (parseDate (getCell d.cols r.2 "HireDate"))
                   (parseDate (getCell d.cols r.2 "TerminationDate")))))
  else none

/-- ASCII lowering of one character (`str.lower()`). -/
def charLower (c : Char) : Char :=
  if 'A' ≤ c ∧ c ≤ 'Z' then Char.ofNat (c.toNat + 32) else c

/-- Does `pat` start the list `l`? -/
def startsWithList : List Char → List Char → Bool
  | [], _ => true
  | _ :: _, [] => false
  | p :: ps, c :: cs => p = c && startsWithList ps cs

/-- Does `pat` occur contiguously inside `l`? -/
def containsList (pat : List Char) : List Char → Bool
  | [] => pat.isEmpty
  | c :: cs => startsWithList pat (c :: cs) || containsList pat cs

/-- `cell.str.lower().str.contains("manager")`: a string cell gives a
boolean, any other cell gives NaN (the `.str` accessor's null result). -/
def containsManager (v : Value) : Option Bool :=
  match v with
  | Value.str s => some (containsList "manager".data (s.data.map charLower))
  | _ => none

/-- pandas `&` between a boolean and a possibly-NaN operand (Kleene:
`False & NaN = False`, `True & NaN = NaN`). -/
def kleeneAnd (a : Bool) (b : Option Bool) : Option Bool :=
  if a then b else some false

/-- `~series` over possibly-NaN boolean verdicts: raises (whole-series
`none`) as soon as one entry is NaN. -/
def invertOrRaise : List (Option Bool) → Option (List (Option Bool))
  | [] => some []
  | some b :: rest =>
    match invertOrRaise rest with
    | some out => some (some (!b) :: out)
    | none => none
  | none :: _ => none

/-- The `junior_not_manager` lambda: `~((JobLevel == 1) & contains)`.
`JobLevel == 1` compares mismatched types as unequal without raising;
inverting a series still containing NaN raises. -/
def junior_pred (d : Dataset) : Option (List (Option Bool)) :=
  invertOrRaise
    (d.rows.map (fun r =>
      kleeneAnd (getCell d.cols r.2 "JobLevel" = Value.num 1)
                (containsManager (getCell d.cols r.2 "JobRole"))))

/-- What the loop hands a rule's lambda:
`df[cols[0]] if len(cols)==1 else df`. -/
inductive RuleInput where
  | series : List Value → RuleInput
  | frame : Dataset → RuleInput

/-- Lift a single-column lambda; handing it a frame raises downstream. -/
def onSeries (f : List Value → Option (List (Option Bool))) :
    RuleInput → Option (List (Option Bool))
  | RuleInput.series s => f s
  | RuleInput.frame _ => none

/-- Lift a whole-frame lambda; handing it a series raises downstream. -/
def onFrame (f : Dataset → Option (List (Option Bool))) :
    RuleInput → Option (List (Option Bool))
  | RuleInput.frame d => f d
  | RuleInput.series _ => none

/-- One entry of the `rules` list:
`(rule_name, rule_func, cols, message)`. -/
structure Rule where
  name : String
  func : RuleInput → Option (List (Option Bool))
  cols : List String
  message : String

/-- `("empid_not_null", lambda s: not_null(s), ["EmpID"], ...)`. -/
def empid_not_null_rule : Rule :=
  ⟨"empid_not_null", onSeries not_null, ["EmpID"], "EmpID must not be null"⟩

/-- `("empid_unique", lambda s: ~s.duplicated(), ["EmpID"], ...)`. -/
def empid_unique_rule : Rule :=
  ⟨"empid_unique", onSeries unique_mask, ["EmpID"], "EmpID must be unique"⟩

/-- `("age_positive", lambda s: is_positive(s), ["Age"], ...)`. -/
def age_positive_rule : Rule :=
  ⟨"age_positive", onSeries is_positive, ["Age"], "Age must be positive"⟩

/-- `("age_range", lambda s: in_range(s, 16, 70), ["Age"], ...)`. -/
def age_range_rule : Rule :=
  ⟨"age_range", onSeries (fun s => in_range s 16 70), ["Age"], "Age must be 16-70"⟩

/-- `("income_positive", lambda s: s >= 0, ["MonthlyIncome"], ...)`. -/
def income_positive_rule : Rule :=
  ⟨"income_positive", onSeries ge_zero, ["MonthlyIncome"], "Income cannot be negative"⟩

/-- `("email_format", lambda s: match_regex(s, r"^[^@]+@[^@]+\.[^@]+$"),
["WorkEmail"], ...)`. -/
def email_format_rule : Rule :=
  ⟨"email_format", onSeries (fun s => match_regex s emailPattern), ["WorkEmail"],
    "Invalid email format"⟩

/-- The `hire_before_termination` rule entry. -/
def hire_before_termination_rule : Rule :=
  ⟨"hire_before_termination", onFrame hire_pred, ["HireDate", "TerminationDate"],
    "HireDate must be <= TerminationDate"⟩

/-- The `junior_not_manager` rule entry. -/
def junior_not_manager_rule : Rule :=
  ⟨"junior_not_manager", onFrame junior_pred, ["JobLevel", "JobRole"],
    "JobLevel 1 cannot have a manager role"⟩

/-- The fixed, ordered `rules` list (section 7 of the source). -/
def rules : List Rule :=
  [empid_not_null_rule, empid_unique_rule, age_positive_rule, age_range_rule,
   income_positive_rule, email_format_rule, hire_before_termination_rule,
   junior_not_manager_rule]

/-- One violation record appended by the loop body. -/
structure Violation where
  index : ℕ
  empid : Option Value
  rule : String
  columns : String
  message : String
  values : List (String × Value)
deriving DecidableEq

/-- The record built for a failing `(row, rule)` pair. -/
def mkViolation (d : Dataset) (r : Rule) (row : ℕ × List Value) : Violation :=
  { index := row.1,
    empid := if "EmpID" ∈ d.cols then some (getCell d.cols row.2 "EmpID") else none,
    rule := r.name,
    columns := String.intercalate "," r.cols,
    message := r.message,
    values := r.cols.map (fun c => (c, getCell d.cols row.2 c)) }

/-- `df[cols[0]] if len(cols)==1 else df`. -/
def ruleInput (d : Dataset) (cols : List String) : RuleInput :=
  match cols with
  | [c] => RuleInput.series (d.column c)
  | _ => RuleInput.frame d

/-- `df.index[~mask.fillna(False)]`, kept with the row payloads: a row
fails exactly when its verdict coerces to `false`, i.e. is not an
explicit `true` (NaN verdicts fail too, since `fillna(False)` precedes
the negation). -/
def failedRows (d : Dataset) (mask : List (Option Bool)) : List (ℕ × List Value) :=
  ((d.rows.zip mask).filter (fun p => !(p.2.getD false))).map (fun p => p.1)

/-- The whole loop body for one rule: skip when a required column is
absent, skip when evaluation raises, otherwise one record per failing
row, in row order. -/
def ruleViolations (d : Dataset) (r : Rule) : List Violation :=
  if ∀ c ∈ r.cols, c ∈ d.cols then
    match r.func (ruleInput d r.cols) with
    | some mask => (failedRows d mask).map (mkViolation d r)
    | none => []
  else []

/-- The mutable state of the validation loop: the dataset (which the loop
only reads) and the growing `violations` list. -/
structure EngineState where
  df : Dataset
  violations : List Violation

/-- One iteration of `for rule_name, rule_func, cols, message in rules`. -/
def validateStep (st : EngineState) (r : Rule) : EngineState :=
  { df := st.df, violations := st.violations ++ ruleViolations st.df r }

/-- The whole validation loop. -/
def runValidation (d : Dataset) (rs : List Rule) : EngineState :=
  rs.foldl validateStep { df := d, violations := [] }

/-- The validation report produced from a dataset and a rule list. -/
def validate (d : Dataset) (rs : List Rule) : List Violation :=
  (runValidation d rs).violations

/-- `numeric_cols_initial` (imputed by mean first). -/
def numeric_cols_initial : List String :=
  ["DistanceFromHome", "HourlyRate", "NumCompaniesWorked",
   "PercentSalaryHike", "TotalWorkingYears", "YearsAtCompany",
   "YearsSinceLastPromotion", "YearsWithCurrManager"]

/-- `text_cols` (imputed with the sentinel `"Unknown"`). -/
def text_cols : List String :=
  ["AgeGroup", "Attrition", "BusinessTravel", "Department",
   "Education", "EducationField", "JobRole", "MaritalStatus",
   "Over18", "OverTime"]

/-- `numeric_cols_remaining` (imputed by mean second). -/
def numeric_cols_remaining : List String :=
  ["DailyRate", "EmployeeCount", "EmployeeNumber",
   "EnvironmentSatisfaction", "JobInvolvement", "JobLevel",
   "JobSatisfaction", "MonthlyIncome", "MonthlyRate",
   "PerformanceRating", "StandardHours", "StockOptionLevel",
   "WorkLifeBalance", "RelationshipSatisfaction"]

/-- `id_cols` (deduplicated one after the other). -/
def id_cols : List String := ["EmpID", "EmployeeNumber"]

/-- `numeric_columns` (coerced with `pd.to_numeric(errors="coerce")`). -/
def numeric_columns : List String :=
  ["Age", "DailyRate", "DistanceFromHome", "Education", "EmployeeCount",
   "EmployeeNumber", "EnvironmentSatisfaction", "HourlyRate",
   "JobInvolvement", "JobLevel", "JobSatisfaction", "MonthlyIncome",
   "MonthlyRate", "NumCompaniesWorked", "PercentSalaryHike",
   "PerformanceRating", "RelationshipSatisfaction", "StandardHours",
   "StockOptionLevel", "TotalWorkingYears", "TrainingTimesLastYear",
   "WorkLifeBalance", "YearsAtCompany", "YearsInCurrentRole",
   "YearsSinceLastPromotion", "YearsWithCurrManager"]

/-- `categorical_columns` (cast to the `category` dtype). -/
def categorical_columns : List String :=
  ["BusinessTravel", "Department", "EducationField", "Gender",
   "JobRole", "MaritalStatus", "Over18", "OverTime",
   "AgeGroup", "SalarySlab"]

/-- `numeric_cols_outliers` (the designated columns for IQR flagging). -/
def numeric_cols_outliers : List String :=
  ["DailyRate", "DistanceFromHome", "MonthlyIncome", "MonthlyRate",
   "PercentSalaryHike", "TotalWorkingYears", "YearsWithCurrManager"]

/-- Fold a per-column stage over a column list, guarded by
`if col in df.columns`. -/
def foldCols (step : Dataset → String → Dataset) (d : Dataset) (cs : List String) : Dataset :=
  cs.foldl (fun d c => if c ∈ d.cols then step d c else d) d

/-- The three artifacts the run persists. -/
structure PipelineResult where
  interim : Dataset
  final : Dataset
  report : List Violation

/-- Sections 3-6 of the source: imputation, deduplication, type fixing
and IQR outlier flagging — everything between loading the raw data and
writing the interim snapshot. -/
def cleanStage (df0 : Dataset) : Dataset :=
  let df1 := foldCols fillnaMean df0 numeric_cols_initial
  let df2 := foldCols (fun d c => fillna d c (Value.str "Unknown")) df1 text_cols
  let df3 := foldCols fillnaMean df2 numeric_cols_remaining
  let df4 := drop_duplicates df3
  let df5 := foldCols drop_duplicates_subset df4 id_cols
  let df6 := foldCols (fun d c => mapCol d c to_numeric) df5 numeric_columns
  let df7 := foldCols astype_category df6 categorical_columns
  let df8 := if "EmpID" ∈ df7.cols then astype_str df7 "EmpID" else df7
  foldCols detect_outliers_iqr df8 numeric_cols_outliers

/-- The whole pipeline on an in-memory dataset: cleaning (sections 3-6),
then the validation loop (7); the interim snapshot is written just before
validation and the final dataset just after. -/
def pipeline (df0 : Dataset) : PipelineResult :=
  { interim := cleanStage df0,
    final := (runValidation (cleanStage df0) rules).df,
    report := (runValidation (cleanStage df0) rules).violations }

/-! ### General engine lemmas -/

/-- The validation loop never writes to the dataset component. -/
theorem foldl_validateStep_df (rs : List Rule) (st : EngineState) :
    (rs.foldl validateStep st).df = st.df := by
  induction rs generalizing st with
  | nil => rfl
  | cons r rs ih => simpa [validateStep] using ih _

/-- The loop accumulates, rule-major, the per-rule violation lists. -/
theorem foldl_validateStep_violations (rs : List Rule) (d : Dataset) (acc : List Violation) :
    (rs.foldl validateStep { df := d, violations := acc }).violations =
      acc ++ rs.flatMap (fun r => ruleViolations d r) := by
  induction rs generalizing acc with
  | nil => simp
  | cons r rs ih => simp [validateStep, ih, List.flatMap_cons]

/-- The report is the rule-major concatenation of per-rule reports. -/
theorem validate_flatMap (d : Dataset) (rs : List Rule) :
    validate d rs = rs.flatMap (fun r => ruleViolations d r) := by
  simpa [validate, runValidation] using foldl_validateStep_violations rs d []

/-- Every record a rule emits carries that rule's name. -/
theorem rule_of_mem_ruleViolations {d : Dataset} {r : Rule} {v : Violation}
    (h : v ∈ ruleViolations d r) : v.rule = r.name := by
  unfold ruleViolations at h
  split at h
  · split at h
    · rcases List.mem_map.1 h with ⟨row, _, rfl⟩
      rfl
    · simp at h
  · simp at h

/-- Filtering the report by a rule name keeps exactly the records of the
rules bearing that name. -/
theorem filter_name_flatMap (d : Dataset) (rs : List Rule) (n : String) :
    (rs.flatMap (fun r => ruleViolations d r)).filter (fun v => v.rule == n) =
      (rs.filter (fun r => r.name == n)).flatMap (fun r => ruleViolations d r) := by
  induction rs with
  | nil => rfl
  | cons r rs ih =>
    by_cases hn : r.name = n
    · have hall : ∀ v ∈ ruleViolations d r, (v.rule == n) = true := by
        intro v hv
        simp [rule_of_mem_ruleViolations hv, hn]
      simp [List.flatMap_cons, List.filter_append, ih, hn,
        List.filter_eq_self.2 hall]
    · have hall : ∀ v ∈ ruleViolations d r, ¬ (v.rule == n) = true := by
        intro v hv
        simp [rule_of_mem_ruleViolations hv, hn]
      simp [List.flatMap_cons, List.filter_append, ih, hn,
        List.filter_eq_nil_iff.2 hall]

/-- `failedRows` against a mask computed row-wise is a row filter: a row
fails iff its verdict coerced by `fillna(False)` is `false`. -/
theorem failedRows_map (d : Dataset) (f : ℕ × List Value → Option Bool) :
    failedRows d (d.rows.map f) = d.rows.filter (fun r => !(f r).getD false) := by
  unfold failedRows
  induction d.rows with
  | nil => rfl
  | cons r rs ih =>
    by_cases h : ((f r).getD false : Bool)
    · simp [List.filter_cons, h] at ih ⊢
      exact ih
    · simp only [Bool.not_eq_true] at h
      simp [List.filter_cons, h] at ih ⊢
      exact ih

/-- A single-column rule whose evaluation returns a per-cell mask reports
exactly the rows whose verdict coerces to `false`. -/
theorem ruleViolations_series_pure (d : Dataset) (r : Rule) (c : String)
    (g : Value → Option Bool) (hcols : r.cols = [c]) (hc : c ∈ d.cols)
    (hfunc : r.func (RuleInput.series (d.column c)) = some ((d.column c).map g)) :
    ruleViolations d r =
      (d.rows.filter (fun row => !(g (getCell d.cols row.2 c)).getD false)).map
        (mkViolation d r) := by
  unfold ruleViolations
  rw [hcols]
  rw [if_pos (by simpa using hc)]
  have hinput : ruleInput d [c] = RuleInput.series (d.column c) := rfl
  rw [hinput, hfunc]
  have hmask : (d.column c).map g = d.rows.map (fun row => g (getCell d.cols row.2 c)) := by
    simp [Dataset.column, List.map_map]
  rw [hmask]
  exact congrArg (List.map (mkViolation d r)) (failedRows_map d _)

/-! ### C3: `empid_not_null` -/

/-- C3: for every dataset with an `EmpID` column, the `empid_not_null`
rule's records in the validation report are exactly one record per row
whose `EmpID` cell is null, in row order, and no other row is reported. -/
theorem c3_empid_not_null_exact (d : Dataset) (h : "EmpID" ∈ d.cols) :
    (validate d rules).filter (fun v => v.rule == "empid_not_null") =
      (d.rows.filter (fun row => decide (getCell d.cols row.2 "EmpID" = Value.null))).map
        (mkViolation d empid_not_null_rule) := by
  rw [validate_flatMap, filter_name_flatMap]
  have hfilter : rules.filter (fun r => r.name == "empid_not_null") = [empid_not_null_rule] := rfl
  rw [hfilter, List.flatMap_cons, List.flatMap_nil, List.append_nil]
  rw [ruleViolations_series_pure d _ "EmpID" (fun v => some (decide (¬ v = Value.null)))
    rfl h rfl]
  congr 1
  apply List.filter_congr
  intro row _
  simp

/-- Two-row dataset exercising `empid_not_null`: one null, one present. -/
def c3ExDf : Dataset := ⟨["EmpID"], [(0, [Value.null]), (1, [Value.str "A"])]⟩

/-- Witness for C3 at a concrete dataset: exactly the null-`EmpID` row is
reported. -/
theorem c3_empid_not_null_exact_witness :
    ("EmpID" ∈ c3ExDf.cols) ∧
      (validate c3ExDf rules).filter (fun v => v.rule == "empid_not_null") =
        (c3ExDf.rows.filter
            (fun row => decide (getCell c3ExDf.cols row.2 "EmpID" = Value.null))).map
          (mkViolation c3ExDf empid_not_null_rule) :=
  ⟨by decide, c3_empid_not_null_exact c3ExDf (by decide)⟩

/-! ### C10: missing `WorkEmail` fails `email_format` -/

/-- C10: in any dataset with a `WorkEmail` column, every row whose
`WorkEmail` cell is null gets an `email_format` violation record: the
predicate stringifies the column first, a missing email becomes the
literal string `"nan"`, and `"nan"` fails the email pattern. -/
theorem c10_null_email_reported (d : Dataset) (h : "WorkEmail" ∈ d.cols) :
    strOfValue Value.null = "nan" ∧ emailPattern "nan" = false ∧
      ∀ row ∈ d.rows, getCell d.cols row.2 "WorkEmail" = Value.null →
        mkViolation d email_format_rule row ∈ validate d rules := by
  refine ⟨rfl, by decide, ?_⟩
  intro row hrow hnull
  rw [validate_flatMap]
  refine List.mem_flatMap.2 ⟨email_format_rule, by simp [rules], ?_⟩
  rw [ruleViolations_series_pure d _ "WorkEmail"
    (fun v => some (emailPattern (strOfValue v))) rfl h rfl]
  refine List.mem_map.2 ⟨row, List.mem_filter.2 ⟨hrow, ?_⟩, rfl⟩
  rw [hnull]
  decide

/-- Two-row dataset exercising `email_format` on a missing email. -/
def c10ExDf : Dataset := ⟨["WorkEmail"], [(0, [Value.null]), (1, [Value.str "a@b.com"])]⟩

/-- Witness for C10: the null-email row's record is in the report. -/
theorem c10_null_email_reported_witness :
    ("WorkEmail" ∈ c10ExDf.cols) ∧
      mkViolation c10ExDf email_format_rule (0, [Value.null]) ∈ validate c10ExDf rules :=
  ⟨by decide,
    (c10_null_email_reported c10ExDf (by decide)).2.2 (0, [Value.null]) (by decide) (by decide)⟩

/-! ### C2: `hire_before_termination` -/

/-- One-row dataset whose `HireDate` does not parse. -/
def c2ExDf : Dataset :=
  ⟨["HireDate", "TerminationDate"], [(0, [Value.str "garbage", Value.str "2020-01-01"])]⟩

/-- C2 counterexample: a row with an unparsable `HireDate` is claimed to
pass, but the code records a `hire_before_termination` violation for it
(the NaT comparison is `false`, and a `false` verdict is a failure). -/
theorem c2_counterexample :
    parseDate (Value.str "garbage") = none ∧
      (validate c2ExDf rules).map (fun v => v.rule) = ["hire_before_termination"] ∧
      (validate c2ExDf rules).map (fun v => v.index) = [0] := by
  decide

/-- C2 (amended): with both date columns present, the rule records exactly
the rows where NOT (both dates parse and parsed HireDate ≤ parsed
TerminationDate); equal parsed dates still pass, but a row with an
unparsable date is a violation rather than a pass. -/
theorem c2_hire_before_termination_exact (d : Dataset)
    (hh : "HireDate" ∈ d.cols) (ht : "TerminationDate" ∈ d.cols) :
    (∀ a b : Option ℕ,
        dateLe a b = true ↔ ∃ x y, a = some x ∧ b = some y ∧ x ≤ y) ∧
      (validate d rules).filter (fun v => v.rule == "hire_before_termination") =
        (d.rows.filter (fun row =>
            !dateLe (parseDate (getCell d.cols row.2 "HireDate"))
                    (parseDate (getCell d.cols row.2 "TerminationDate")))).map
          (mkViolation d hire_before_termination_rule) := by
  constructor
  · intro a b
    cases a <;> cases b <;> simp [dateLe]
  · rw [validate_flatMap, filter_name_flatMap]
    have hfilter : rules.filter (fun r => r.name == "hire_before_termination") =
        [hire_before_termination_rule] := rfl
    rw [hfilter, List.flatMap_cons, List.flatMap_nil, List.append_nil]
    unfold ruleViolations
    rw [if_pos (by simp [hire_before_termination_rule, hh, ht])]
    have hinput : ruleInput d hire_before_termination_rule.cols = RuleInput.frame d := rfl
    rw [hinput]
    have hfunc : hire_before_termination_rule.func (RuleInput.frame d) =
        some (d.rows.map (fun r =>
          some (dateLe (parseDate (getCell d.cols r.2 "HireDate"))
                       (parseDate (getCell d.cols r.2 "TerminationDate"))))) := by
      show hire_pred d = _
      rw [hire_pred, if_pos ⟨hh, ht⟩]
    rw [hfunc]
    exact congrArg (List.map (mkViolation d hire_before_termination_rule))
      (failedRows_map d _)

/-- Six-row dataset for the amended C2: pass, strict violation,
unparsable violation, equal-dates pass, invalid-calendar-date violation,
out-of-Timestamp-bounds violation. -/
def c2WitDf : Dataset :=
  ⟨["HireDate", "TerminationDate"],
   [(0, [Value.str "2019-05-01", Value.str "2020-01-01"]),
    (1, [Value.str "2020-01-01", Value.str "2019-01-01"]),
    (2, [Value.str "garbage", Value.str "2020-01-01"]),
    (3, [Value.str "2020-01-01", Value.str "2020-01-01"]),
    (4, [Value.str "2021-02-30", Value.str "2021-03-01"]),
    (5, [Value.str "1500-01-01", Value.str "2020-01-01"])]⟩

/-- Witness for the amended C2 on a concrete dataset: Feb 30 and a
pre-`Timestamp.min` year coerce to `NaT` and are reported, a garbage
string is reported, a strictly-later hire is reported, and the two rows
with parsable ordered dates (including equal dates) pass. -/
theorem c2_hire_before_termination_exact_witness :
    ("HireDate" ∈ c2WitDf.cols) ∧ ("TerminationDate" ∈ c2WitDf.cols) ∧
      parseDate (Value.str "2021-02-30") = none ∧
      parseDate (Value.str "1500-01-01") = none ∧
      parseDate (Value.str "2020-02-29") = some 20200229 ∧
      ((validate c2WitDf rules).filter (fun v => v.rule == "hire_before_termination") =
        (c2WitDf.rows.filter (fun row =>
            !dateLe (parseDate (getCell c2WitDf.cols row.2 "HireDate"))
                    (parseDate (getCell c2WitDf.cols row.2 "TerminationDate")))).map
          (mkViolation c2WitDf hire_before_termination_rule)) ∧
      (validate c2WitDf rules).map (fun v => v.index) = [1, 2, 4, 5] :=
  ⟨by decide, by decide, by decide, by decide, by decide,
    (c2_hire_before_termination_exact c2WitDf (by decide) (by decide)).2, by decide⟩

/-! ### C1 / C7 shared helper: which verdicts produce records -/

/-- For an evaluated rule, the emitted records are exactly those of the
rows whose verdict is not an explicit `true`: `fillna(False)` turns a
null verdict into `False` before the negation, so null verdicts are
reported together with explicit `false` ones. -/
theorem ruleViolations_nontrue (d : Dataset) (r : Rule) (mask : List (Option Bool))
    (hcols : ∀ c ∈ r.cols, c ∈ d.cols)
    (hfunc : r.func (ruleInput d r.cols) = some mask) :
    ruleViolations d r =
      ((d.rows.zip mask).filter (fun p => p.2 != some true)).map
        (fun p => mkViolation d r p.1) := by
  unfold ruleViolations
  rw [if_pos hcols, hfunc]
  show ((((d.rows.zip mask).filter (fun p => !(p.2.getD false))).map
      (fun p => p.1)).map (mkViolation d r)) = _
  rw [List.map_map]
  congr 1
  apply List.filter_congr
  intro p _
  cases h2 : p.2 with
  | none => rfl
  | some b => cases b <;> rfl

/-! ### C1: null verdicts and violation records -/

/-- One-row dataset over a single column `X`. -/
def c1ExDf : Dataset := ⟨["X"], [(0, [Value.num 1])]⟩

/-- A rule whose per-row verdict is null on the only row. -/
def c1NullVerdictRule : Rule :=
  ⟨"null_verdict", fun _ => some [none], ["X"], "null verdict demo"⟩

/-- C1 counterexample: a rule's verdict at row 0 is null (not an explicit
false), yet the engine emits a violation record for that (row, rule)
pair, contradicting the claimed null-is-pass coercion. -/
theorem c1_counterexample :
    c1NullVerdictRule.func (ruleInput c1ExDf c1NullVerdictRule.cols) = some [none] ∧
      (validate c1ExDf [c1NullVerdictRule]).map (fun v => v.index) = [0] := by
  decide

/-- C1 (amended): a violation record is emitted for a (row, rule) pair
exactly when the verdict is NOT an explicit `true` — so a null/unknown
verdict is reported as a violation (null is failure, not pass). -/
theorem c1_nontrue_verdicts_reported (d : Dataset) (r : Rule) (mask : List (Option Bool))
    (hcols : ∀ c ∈ r.cols, c ∈ d.cols)
    (hfunc : r.func (ruleInput d r.cols) = some mask) :
    ruleViolations d r =
      ((d.rows.zip mask).filter (fun p => p.2 != some true)).map
        (fun p => mkViolation d r p.1) :=
  ruleViolations_nontrue d r mask hcols hfunc

/-- Three-row dataset and a rule with verdicts `true`, `false`, null. -/
def c1WitDf : Dataset :=
  ⟨["X"], [(0, [Value.num 1]), (1, [Value.num 2]), (2, [Value.num 3])]⟩

/-- A rule producing one verdict of each kind. -/
def c1WitRule : Rule :=
  ⟨"mixed_verdicts", fun _ => some [some true, some false, none], ["X"], "demo"⟩

/-- Witness for the amended C1: rows 1 (explicit false) and 2 (null) are
reported, row 0 (explicit true) is not. -/
theorem c1_nontrue_verdicts_reported_witness :
    (∀ c ∈ c1WitRule.cols, c ∈ c1WitDf.cols) ∧
      ruleViolations c1WitDf c1WitRule =
        ((c1WitDf.rows.zip [some true, some false, none]).filter
            (fun p => p.2 != some true)).map
          (fun p => mkViolation c1WitDf c1WitRule p.1) :=
  ⟨by decide,
    c1_nontrue_verdicts_reported c1WitDf c1WitRule [some true, some false, none]
      (by decide) rfl⟩

/-! ### C6 / C8 shared helper: dropping a silent rule -/

/-- A rule that contributes no records can be removed from the rule list
without changing the report. -/
theorem validate_erase_silent (d : Dataset) (pre post : List Rule) (r : Rule)
    (hrv : ruleViolations d r = []) :
    validate d (pre ++ r :: post) = validate d (pre ++ post) := by
  rw [validate_flatMap, validate_flatMap, List.flatMap_append, List.flatMap_append,
    List.flatMap_cons, hrv]
  simp

/-! ### C6: exceptions inside a predicate -/

/-- C6: when a rule's predicate raises, the engine records zero
violations for it and the report is the one the remaining rules would
produce with the failing rule absent. -/
theorem c6_exception_skips_rule (d : Dataset) (pre post : List Rule) (r : Rule)
    (hraise : r.func (ruleInput d r.cols) = none) :
    ruleViolations d r = [] ∧
      validate d (pre ++ r :: post) = validate d (pre ++ post) := by
  have hrv : ruleViolations d r = [] := by
    unfold ruleViolations
    split
    · rw [hraise]
    · rfl
  exact ⟨hrv, validate_erase_silent d pre post r hrv⟩

/-- A rule whose predicate always raises. -/
def c6RaisingRule : Rule :=
  ⟨"always_raises", fun _ => none, ["Age"], "raising demo"⟩

/-- Dataset with `Age` and `EmpID` columns for the C6 witness. -/
def c6ExDf : Dataset :=
  ⟨["EmpID", "Age"], [(0, [Value.str "A", Value.num 15]), (1, [Value.null, Value.num 30])]⟩

/-- Witness for C6: the raising rule contributes nothing between two real
rules. -/
theorem c6_exception_skips_rule_witness :
    c6RaisingRule.func (ruleInput c6ExDf c6RaisingRule.cols) = none ∧
      (ruleViolations c6ExDf c6RaisingRule = [] ∧
        validate c6ExDf ([age_range_rule] ++ c6RaisingRule :: [empid_not_null_rule]) =
          validate c6ExDf ([age_range_rule] ++ [empid_not_null_rule])) :=
  ⟨rfl, c6_exception_skips_rule c6ExDf [age_range_rule] [empid_not_null_rule] c6RaisingRule rfl⟩

/-! ### C8: rules with absent required columns -/

/-- C8: a rule with a required column absent from the dataset is skipped:
zero records for it, and the report equals the one produced without the
rule declared at all. -/
theorem c8_missing_column_skips_rule (d : Dataset) (pre post : List Rule) (r : Rule)
    (hmiss : ∃ c ∈ r.cols, c ∉ d.cols) :
    ruleViolations d r = [] ∧
      validate d (pre ++ r :: post) = validate d (pre ++ post) := by
  have hrv : ruleViolations d r = [] := by
    unfold ruleViolations
    rw [if_neg]
    intro hall
    rcases hmiss with ⟨c, hc, hnot⟩
    exact hnot (hall c hc)
  exact ⟨hrv, validate_erase_silent d pre post r hrv⟩

/-- Witness for C8: `income_positive` requires `MonthlyIncome`, absent
from the dataset; it contributes nothing between two real rules. -/
theorem c8_missing_column_skips_rule_witness :
    (∃ c ∈ income_positive_rule.cols, c ∉ c6ExDf.cols) ∧
      (ruleViolations c6ExDf income_positive_rule = [] ∧
        validate c6ExDf ([age_range_rule] ++ income_positive_rule :: [empid_not_null_rule]) =
          validate c6ExDf ([age_range_rule] ++ [empid_not_null_rule])) :=
  ⟨by decide,
    c8_missing_column_skips_rule c6ExDf [age_range_rule] [empid_not_null_rule]
      income_positive_rule (by decide)⟩

/-! ### C7: report structure (order and count) -/

/-- A rule with no required columns and a single null verdict. -/
def c7NullRule : Rule :=
  ⟨"c7_null_verdict", fun _ => some [none], [], "null verdict demo"⟩

/-- C7 counterexample: the report holds one record although no verdict is
an explicit `false` (the only verdict is null), so the report's row count
exceeds the count of explicit-false verdicts. -/
theorem c7_counterexample :
    (validate c1ExDf [c7NullRule]).length = 1 ∧
      ((c7NullRule.func (ruleInput c1ExDf c7NullRule.cols)).getD []).countP
        (fun v => v == some false) = 0 := by
  decide

/-- C7 (amended): the report is the rule-major concatenation of per-rule
records (each rule's failing rows in row order), its row count is the sum
over rules of their record counts, and an evaluated rule records exactly
the rows whose verdict is not an explicit `true` (explicit false or
null), not just the explicit-false ones. -/
theorem c7_report_structure (d : Dataset) (rs : List Rule) :
    validate d rs = rs.flatMap (fun r => ruleViolations d r) ∧
      (validate d rs).length = (rs.map (fun r => (ruleViolations d r).length)).sum ∧
      ∀ r, (∀ c ∈ r.cols, c ∈ d.cols) → ∀ mask, r.func (ruleInput d r.cols) = some mask →
        ruleViolations d r =
          ((d.rows.zip mask).filter (fun p => p.2 != some true)).map
            (fun p => mkViolation d r p.1) := by
  refine ⟨validate_flatMap d rs, ?_, ?_⟩
  · rw [validate_flatMap]
    induction rs with
    | nil => rfl
    | cons r rs ih => simp [List.flatMap_cons, ih]
  · intro r hcols mask hfunc
    exact ruleViolations_nontrue d r mask hcols hfunc

/-- Witness for the amended C7: length equation at a concrete dataset
with the full rules list, and the verdict characterization at the
null-verdict rule. -/
theorem c7_report_structure_witness :
    (validate c2WitDf rules).length =
        (rules.map (fun r => (ruleViolations c2WitDf r).length)).sum ∧
      ruleViolations c1ExDf c7NullRule =
        ((c1ExDf.rows.zip [(none : Option Bool)]).filter (fun p => p.2 != some true)).map
          (fun p => mkViolation c1ExDf c7NullRule p.1) :=
  ⟨(c7_report_structure c2WitDf rules).2.1,
    (c7_report_structure c1ExDf [c7NullRule]).2.2 c7NullRule (by decide) [none] rfl⟩

/-! ### C9: validation does not mutate the dataset -/

/-- The final dataset is the loop state's dataset component. -/
theorem pipeline_final (df0 : Dataset) :
    (pipeline df0).final = (runValidation (cleanStage df0) rules).df := by
  simp only [pipeline]

/-- The interim dataset is the cleaning stage's output. -/
theorem pipeline_interim (df0 : Dataset) :
    (pipeline df0).interim = cleanStage df0 := by
  simp only [pipeline]

/-- The report component of the pipeline result. -/
theorem pipeline_report (df0 : Dataset) :
    (pipeline df0).report = validate (cleanStage df0) rules := by
  simp only [pipeline, validate]

/-- The loop returns the dataset it was given. -/
theorem runValidation_df (d : Dataset) (rs : List Rule) :
    (runValidation d rs).df = d :=
  foldl_validateStep_df rs ⟨d, []⟩

/-- C9: the final dataset written after validation equals the interim
dataset written before it — the validation loop only reads the dataset. -/
theorem c9_final_eq_interim (df0 : Dataset) :
    (pipeline df0).final = (pipeline df0).interim := by
  rw [pipeline_final, pipeline_interim, runValidation_df]

/-! ### C4: end-to-end run with a duplicate EmpID and a bad Age -/

/-- A guarded per-column stage does nothing when none of its columns is
present. -/
theorem foldCols_not_mem (step : Dataset → String → Dataset) (d : Dataset)
    (cs : List String) (h : ∀ c ∈ cs, c ∉ d.cols) : foldCols step d cs = d := by
  induction cs with
  | nil => rfl
  | cons c cs ih =>
    unfold foldCols at ih ⊢
    rw [List.foldl_cons, if_neg (h c (List.mem_cons_self c cs))]
    exact ih (fun c2 h2 => h c2 (List.mem_cons_of_mem c h2))

/-- Casting to the `category` dtype never changes the dataset. -/
theorem foldCols_astype_category (d : Dataset) (cs : List String) :
    foldCols astype_category d cs = d := by
  induction cs with
  | nil => rfl
  | cons c cs ih =>
    unfold foldCols at ih ⊢
    rw [List.foldl_cons]
    by_cases h : c ∈ d.cols
    · rw [if_pos h]; exact ih
    · rw [if_neg h]; exact ih

/-- The 3-row input family of the end-to-end scenario: rows 0 and 1 share
EmpID `a`, row 2 has EmpID `b` and the suspicious Age `z`. -/
def c4Fam (a b : String) (x y z : ℚ) : Dataset :=
  ⟨["EmpID", "Age"],
   [(0, [Value.str a, Value.num x]), (1, [Value.str a, Value.num y]),
    (2, [Value.str b, Value.num z])]⟩

/-- What cleaning leaves of the family: the duplicated-EmpID row 1 is
gone. -/
def c4FamClean (a b : String) (x z : ℚ) : Dataset :=
  ⟨["EmpID", "Age"], [(0, [Value.str a, Value.num x]), (2, [Value.str b, Value.num z])]⟩

/-- Cleaning the family drops exactly the duplicated-EmpID row: via the
full-row deduplication when the two copies agree on Age, via the EmpID
deduplication otherwise. -/
theorem cleanStage_c4Fam (a b : String) (x y z : ℚ) (hab : a ≠ b) :
    cleanStage (c4Fam a b x y z) = c4FamClean a b x z := by
  have h6 : foldCols (fun d c => mapCol d c to_numeric) (c4FamClean a b x z) numeric_columns =
      c4FamClean a b x z := by
    simp +decide [c4FamClean, foldCols, List.foldl_cons, List.foldl_nil, numeric_columns,
      mapCol, colIdx, getNth, setNth, to_numeric]
  have h7 : foldCols astype_category (c4FamClean a b x z) categorical_columns =
      c4FamClean a b x z :=
    foldCols_astype_category _ _
  have h8 : (if "EmpID" ∈ (c4FamClean a b x z).cols then astype_str (c4FamClean a b x z) "EmpID"
      else c4FamClean a b x z) = c4FamClean a b x z := by
    simp +decide [c4FamClean, astype_str, mapCol, colIdx, getNth, setNth, strOfValue]
  have h9 : foldCols detect_outliers_iqr (c4FamClean a b x z) numeric_cols_outliers =
      c4FamClean a b x z :=
    foldCols_not_mem detect_outliers_iqr (c4FamClean a b x z) numeric_cols_outliers
      (by decide : ∀ c ∈ numeric_cols_outliers, c ∉ (["EmpID", "Age"] : List String))
  simp only [cleanStage]
  rw [foldCols_not_mem fillnaMean (c4Fam a b x y z) numeric_cols_initial
    (by decide : ∀ c ∈ numeric_cols_initial, c ∉ (["EmpID", "Age"] : List String))]
  rw [foldCols_not_mem (fun d c => fillna d c (Value.str "Unknown")) (c4Fam a b x y z) text_cols
    (by decide : ∀ c ∈ text_cols, c ∉ (["EmpID", "Age"] : List String))]
  rw [foldCols_not_mem fillnaMean (c4Fam a b x y z) numeric_cols_remaining
    (by decide : ∀ c ∈ numeric_cols_remaining, c ∉ (["EmpID", "Age"] : List String))]
  rcases eq_or_ne y x with h | h
  · subst h
    have h4 : drop_duplicates (c4Fam a b y y z) = c4FamClean a b y z := by
      simp [c4Fam, c4FamClean, drop_duplicates, dedupBy, hab, Ne.symm hab]
    have h5 : foldCols drop_duplicates_subset (c4FamClean a b y z) id_cols =
        c4FamClean a b y z := by
      simp +decide [c4FamClean, foldCols, List.foldl_cons, List.foldl_nil, id_cols,
        drop_duplicates_subset, dedupBy, getCell, colIdx, getNth, Ne.symm hab]
    rw [h4, h5, h6, h7, h8, h9]
  · have h4 : drop_duplicates (c4Fam a b x y z) = c4Fam a b x y z := by
      simp [c4Fam, drop_duplicates, dedupBy, h, hab, Ne.symm hab]
    have h5 : foldCols drop_duplicates_subset (c4Fam a b x y z) id_cols =
        c4FamClean a b x z := by
      simp +decide [c4Fam, c4FamClean, foldCols, List.foldl_cons, List.foldl_nil, id_cols,
        drop_duplicates_subset, dedupBy, getCell, colIdx, getNth, Ne.symm hab]
    rw [h4, h5, h6, h7, h8, h9]

/-- Validation of the cleaned family: only `age_range` fires, on row 2. -/
theorem validate_c4FamClean (a b : String) (x z : ℚ) (hab : a ≠ b)
    (hx1 : 16 ≤ x) (hx2 : x ≤ 70) (hxp : 0 < x) (hzp : 0 < z)
    (hz : ¬ (16 ≤ z ∧ z ≤ 70)) :
    validate (c4FamClean a b x z) rules =
      [mkViolation (c4FamClean a b x z) age_range_rule (2, [Value.str b, Value.num z])] := by
  have hzb : (decide (16 ≤ z) && decide (z ≤ 70)) = false := by
    rw [← Bool.decide_and]
    exact decide_eq_false hz
  simp +decide [hzb, c4FamClean, validate, runValidation, validateStep, rules,
    List.foldl_cons, List.foldl_nil, ruleViolations, ruleInput, Dataset.column, getCell,
    colIdx, getNth, onSeries, onFrame, empid_not_null_rule, empid_unique_rule,
    age_positive_rule, age_range_rule, income_positive_rule, email_format_rule,
    hire_before_termination_rule, junior_not_manager_rule,
    not_null, unique_mask, duplicatedMask, dupGo, is_positive, in_range, cmpNum,
    mapOrRaise, failedRows, List.zip, List.zipWith, List.filter,
    hab, Ne.symm hab, hx1, hx2, hxp, hzp, hz]

/-- The concrete 3-row end-to-end input: one duplicate EmpID, one Age out
of range, everything else passing. -/
def c4ExDf : Dataset := c4Fam "E1" "E2" 30 40 71

set_option maxRecDepth 400000 in
/-- C4 counterexample: this 3-row dataset has exactly one duplicated
EmpID value and exactly one Age outside `[16, 70]` with every other rule
passing, yet the whole pipeline reports exactly 1 violation record, not
2: deduplication removes the duplicated EmpID before validation, so
`empid_unique` never fires. -/
theorem c4_counterexample :
    c4ExDf.rows.length = 3 ∧
      c4ExDf.column "EmpID" = [Value.str "E1", Value.str "E1", Value.str "E2"] ∧
      c4ExDf.column "Age" = [Value.num 30, Value.num 40, Value.num 71] ∧
      ((16 : ℚ) ≤ 30 ∧ (30 : ℚ) ≤ 70) ∧ ((16 : ℚ) ≤ 40 ∧ (40 : ℚ) ≤ 70) ∧
      ¬ ((16 : ℚ) ≤ 71 ∧ (71 : ℚ) ≤ 70) ∧
      (pipeline c4ExDf).report.length = 1 ∧
      ¬ (pipeline c4ExDf).report.length = 2 := by
  decide

/-- C4 (amended): for every 3-row dataset over columns EmpID, Age of the
shape `(a, x), (a, y), (b, z)` — distinct string EmpIDs `a ≠ b`, positive
in-range Ages `x`, `y` on the duplicated-EmpID rows and a positive
out-of-range Age `z` on the third row — the pipeline's validation report
holds exactly ONE violation record, the `age_range` one at row index 2
(not two records): the duplicated EmpID row is removed by deduplication
before validation, so `empid_unique` reports nothing. -/
theorem c4_pipeline_one_violation (a b : String) (x y z : ℚ) (hab : a ≠ b)
    (hx1 : 16 ≤ x) (hx2 : x ≤ 70) (hy1 : 16 ≤ y) (hy2 : y ≤ 70)
    (hxp : 0 < x) (hyp2 : 0 < y) (hzp : 0 < z) (hz : ¬ (16 ≤ z ∧ z ≤ 70)) :
    (pipeline (c4Fam a b x y z)).report.map (fun v => (v.rule, v.index)) =
      [("age_range", 2)] ∧
      (pipeline (c4Fam a b x y z)).report.length = 1 := by
  rw [pipeline_report, cleanStage_c4Fam a b x y z hab,
    validate_c4FamClean a b x z hab hx1 hx2 hxp hzp hz]
  constructor
  · simp [mkViolation, age_range_rule]
  · rfl

/-- Witness for the amended C4 at concrete values. -/
theorem c4_pipeline_one_violation_witness :
    ("E1" : String) ≠ "E2" ∧ ¬ ((16 : ℚ) ≤ 71 ∧ (71 : ℚ) ≤ 70) ∧
      (pipeline (c4Fam "E1" "E2" 30 40 71)).report.map (fun v => (v.rule, v.index)) =
        [("age_range", 2)] ∧
      (pipeline (c4Fam "E1" "E2" 30 40 71)).report.length = 1 :=
  ⟨by decide, by decide,
    c4_pipeline_one_violation "E1" "E2" 30 40 71 (by decide) (by decide) (by decide)
      (by decide) (by decide) (by decide) (by decide) (by decide) (by decide)⟩

/-! ### C5: IQR outlier flagging -/

/-- Looking a column up ignores columns appended after it. -/
theorem colIdx_append_of_mem (c0 : String) (cols rest : List String) (h : c0 ∈ cols) :
    colIdx c0 (cols ++ rest) = colIdx c0 cols := by
  induction cols with
  | nil => cases h
  | cons c2 cs ih =>
    by_cases h2 : c2 = c0
    · simp [colIdx, h2]
    · have : c0 ∈ cs := by
        rcases List.mem_cons.1 h with h3 | h3
        · exact absurd h3.symm h2
        · exact h3
      simp [colIdx, h2, ih this]

/-- A found column index is within the column count. -/
theorem colIdx_lt_length (c0 : String) (cols : List String) (i : ℕ)
    (h : colIdx c0 cols = some i) : i < cols.length := by
  induction cols generalizing i with
  | nil => cases h
  | cons c2 cs ih =>
    by_cases h2 : c2 = c0
    · rw [colIdx, if_pos h2] at h
      cases h
      simp
    · rw [colIdx, if_neg h2] at h
      cases hrec : colIdx c0 cs with
      | none => rw [hrec] at h; cases h
      | some j =>
        rw [hrec] at h
        cases h
        simpa using Nat.succ_lt_succ (ih j hrec)

/-- Reading below the length of the left list ignores an appended tail. -/
theorem getNth_append_lt (vals w : List Value) (i : ℕ) (h : i < vals.length) :
    getNth (vals ++ w) i = getNth vals i := by
  induction vals generalizing i with
  | nil => cases h
  | cons v vs ih =>
    cases i with
    | zero => rfl
    | succ j => exact ih j (Nat.lt_of_succ_lt_succ h)

/-- Cells of original columns are untouched by appending a column. -/
theorem getCell_append (cols : List String) (vals : List Value) (c0 newc : String)
    (newv : Value) (hc : c0 ∈ cols) (hlen : vals.length = cols.length) :
    getCell (cols ++ [newc]) (vals ++ [newv]) c0 = getCell cols vals c0 := by
  unfold getCell
  rw [colIdx_append_of_mem c0 cols [newc] hc]
  cases hidx : colIdx c0 cols with
  | none => rfl
  | some i =>
    exact getNth_append_lt vals [newv] i (hlen ▸ colIdx_lt_length c0 cols i hidx)

/-- A null cell is never flagged. -/
theorem outlierFlag_null (fence : Option (ℚ × ℚ)) : outlierFlag fence Value.null = 0 := by
  rcases fence with _ | ⟨lo, hi⟩ <;> rfl

/-- A string cell is never flagged (the claims only use this under the
numeric-column hypothesis). -/
theorem outlierFlag_str (fence : Option (ℚ × ℚ)) (s : String) :
    outlierFlag fence (Value.str s) = 0 := by
  rcases fence with _ | ⟨lo, hi⟩ <;> rfl

/-- With a NaN fence nothing is flagged. -/
theorem outlierFlag_none (v : Value) : outlierFlag none v = 0 := by
  rcases v with _ | x | s <;> rfl

/-- The numeric case of the flag. -/
theorem outlierFlag_num (lo hi x : ℚ) :
    outlierFlag (some (lo, hi)) (Value.num x) = if x < lo ∨ x > hi then 1 else 0 := rfl

/-- The fence from the two quartiles. -/
theorem iqrFence_eq_some (vals : List Value) (q1 q3 : ℚ)
    (h1 : quantile vals (mkRat 1 4) = some q1) (h3 : quantile vals (mkRat 3 4) = some q3) :
    iqrFence vals =
      some (q1 - mkRat 3 2 * (q3 - q1), q3 + mkRat 3 2 * (q3 - q1)) := by
  unfold iqrFence
  rw [h1, h3]

/-- The fence is NaN exactly when a quartile is. -/
theorem iqrFence_eq_none (vals : List Value)
    (h : quantile vals (mkRat 1 4) = none ∨ quantile vals (mkRat 3 4) = none) :
    iqrFence vals = none := by
  unfold iqrFence
  rcases h with h | h <;> rw [h]
  cases quantile vals (mkRat 1 4) <;> rfl

/-- C5: flagging a present numeric column appends exactly one new column
`<column>_outlier`, leaves every original column's values unchanged, and
at each row the flag is 1 exactly when the cell is a number outside the
IQR fence built from the column's quartiles, else 0 — in particular the
flag is always 0 or 1 and a null cell is never flagged. -/
theorem c5_detect_outliers_iqr (d : Dataset) (c : String) (hc : c ∈ d.cols)
    (hfresh : (c ++ "_outlier") ∉ d.cols)
    (hwf : ∀ r ∈ d.rows, r.2.length = d.cols.length)
    (hnum : ∀ v ∈ d.column c, isStrVal v = false) :
    (detect_outliers_iqr d c).cols = d.cols ++ [c ++ "_outlier"] ∧
      (∀ c0 ∈ d.cols, (detect_outliers_iqr d c).column c0 = d.column c0) ∧
      (∀ i row, d.rows.get? i = some row → ∃ fl : ℚ,
        (detect_outliers_iqr d c).rows.get? i = some (row.1, row.2 ++ [Value.num fl]) ∧
        (fl = 0 ∨ fl = 1) ∧
        (fl = 1 ↔ ∃ x q1 q3, getCell d.cols row.2 c = Value.num x ∧
          quantile (d.column c) (mkRat 1 4) = some q1 ∧
          quantile (d.column c) (mkRat 3 4) = some q3 ∧
          (x < q1 - mkRat 3 2 * (q3 - q1) ∨ x > q3 + mkRat 3 2 * (q3 - q1))) ∧
        (getCell d.cols row.2 c = Value.null → fl = 0)) := by
  refine ⟨rfl, ?_, ?_⟩
  · intro c0 hc0
    show (d.rows.map _).map _ = d.rows.map _
    rw [List.map_map]
    apply List.map_congr_left
    intro r hr
    exact getCell_append d.cols r.2 c0 (c ++ "_outlier") _ hc0 (hwf r hr)
  · intro i row hrow
    refine ⟨outlierFlag (iqrFence (d.column c)) (getCell d.cols row.2 c), ?_, ?_, ?_, ?_⟩
    · show (d.rows.map _).get? i = _
      rw [List.get?_map, hrow]
      rfl
    · rcases hval : getCell d.cols row.2 c with _ | x | s
      · rw [outlierFlag_null]
        exact Or.inl rfl
      · rcases hfe : iqrFence (d.column c) with _ | ⟨lo, hi⟩
        · rw [outlierFlag_none]
          exact Or.inl rfl
        · rw [outlierFlag_num]
          by_cases hout : x < lo ∨ x > hi
          · rw [if_pos hout]
            exact Or.inr rfl
          · rw [if_neg hout]
            exact Or.inl rfl
      · rw [outlierFlag_str]
        exact Or.inl rfl
    · have hmem : getCell d.cols row.2 c ∈ d.column c :=
        List.mem_map.2 ⟨row, List.get?_mem hrow, rfl⟩
      rcases hval : getCell d.cols row.2 c with _ | x | s
      · rw [outlierFlag_null]
        constructor
        · intro h01
          norm_num at h01
        · rintro ⟨x, q1, q3, hx, -⟩
          cases hx
      · cases hq1 : quantile (d.column c) (mkRat 1 4) with
        | none =>
          rw [iqrFence_eq_none _ (Or.inl hq1), outlierFlag_none]
          constructor
          · intro h01
            norm_num at h01
          · rintro ⟨x2, q1, q3, hx2, hq1b, -⟩
            cases hq1b
        | some q1 =>
          cases hq3 : quantile (d.column c) (mkRat 3 4) with
          | none =>
            rw [iqrFence_eq_none _ (Or.inr hq3), outlierFlag_none]
            constructor
            · intro h01
              norm_num at h01
            · rintro ⟨x2, q1b, q3, hx2, hq1b, hq3b, -⟩
              cases hq3b
          | some q3 =>
            rw [iqrFence_eq_some _ q1 q3 hq1 hq3, outlierFlag_num]
            by_cases hout : x < q1 - mkRat 3 2 * (q3 - q1) ∨ x > q3 + mkRat 3 2 * (q3 - q1)
            · rw [if_pos hout]
              constructor
              · intro h1
                exact ⟨x, q1, q3, rfl, rfl, rfl, hout⟩
              · intro h1
                rfl
            · rw [if_neg hout]
              constructor
              · intro h01
                norm_num at h01
              · rintro ⟨x2, q1b, q3b, hx2, hq1b, hq3b, houtb⟩
                cases hx2
                cases hq1b
                cases hq3b
                exact absurd houtb hout
      · have := hnum _ (hval ▸ hmem)
        simp [isStrVal] at this
    · intro hnull
      rw [hnull, outlierFlag_null]

/-- Five-row dataset for the C5 witness: four numbers (one of them the
clear outlier 100) and one null. -/
def c5ExDf : Dataset :=
  ⟨["Age"],
   [(0, [Value.num 1]), (1, [Value.num 2]), (2, [Value.num 3]),
    (3, [Value.num 100]), (4, [Value.null])]⟩

section
attribute [local semireducible] Rat.add Rat.mul Rat.sub Rat.inv
set_option maxRecDepth 200000

/-- Witness for C5: hypotheses hold on the concrete dataset, the flagged
conclusion follows by the theorem, and the appended flag column evaluates
to `[0, 0, 0, 1, 0]` (only 100 is outside the fence; the null row is 0). -/
theorem c5_detect_outliers_iqr_witness :
    ("Age" ∈ c5ExDf.cols) ∧ (("Age" ++ "_outlier") ∉ c5ExDf.cols) ∧
      (∀ r ∈ c5ExDf.rows, r.2.length = c5ExDf.cols.length) ∧
      (∀ v ∈ c5ExDf.column "Age", isStrVal v = false) ∧
      ((detect_outliers_iqr c5ExDf "Age").cols = c5ExDf.cols ++ ["Age" ++ "_outlier"] ∧
        (∀ c0 ∈ c5ExDf.cols,
          (detect_outliers_iqr c5ExDf "Age").column c0 = c5ExDf.column c0) ∧
        (∀ i row, c5ExDf.rows.get? i = some row → ∃ fl : ℚ,
          (detect_outliers_iqr c5ExDf "Age").rows.get? i =
            some (row.1, row.2 ++ [Value.num fl]) ∧
          (fl = 0 ∨ fl = 1) ∧
          (fl = 1 ↔ ∃ x q1 q3, getCell c5ExDf.cols row.2 "Age" = Value.num x ∧
            quantile (c5ExDf.column "Age") (mkRat 1 4) = some q1 ∧
            quantile (c5ExDf.column "Age") (mkRat 3 4) = some q3 ∧
            (x < q1 - mkRat 3 2 * (q3 - q1) ∨ x > q3 + mkRat 3 2 * (q3 - q1))) ∧
          (getCell c5ExDf.cols row.2 "Age" = Value.null → fl = 0))) ∧
      (detect_outliers_iqr c5ExDf "Age").rows.map (fun r => getNth r.2 1) =
        [Value.num 0, Value.num 0, Value.num 0, Value.num 1, Value.num 0] :=
  ⟨by decide, by decide, by decide, by decide,
    c5_detect_outliers_iqr c5ExDf "Age" (by decide) (by decide) (by decide) (by decide),
    by decide⟩

end

end HR
